import Mathlib

/-!
Shallow embedding of the core of the `bastion` repository:

* `LightProc` — the task state word manipulated by `ProcHandle::cancel`,
  `impl Drop for ProcHandle` and `impl Future for ProcHandle`
  (`src/lightproc/src/proc_handle.rs`);
* `Bastion` — the supervision broadcast bus (`src/src/broadcast.rs`);
* `Executor` — the load-balancer sampler loop body
  (`src/bastion-executor/src/load_balancer.rs`).

Machine words (`usize` on a 64-bit host) are modelled as `Nat` together with
explicit 64-bit mask arithmetic where the source uses bitwise complement.
Sequential models of the compare-exchange loops take the successful pass of
each loop; interference between the initial load and a re-load is modelled by
an explicit oracle argument where a claim talks about the re-loaded state.
-/

namespace LightProc

/-- Modelled from the spec: `lightproc/src/state.rs` is not under `src/`.
The spec's data model gives a single word with seven low flag bits
(`SCHEDULED`, `RUNNING`, `COMPLETED`, `CLOSED`, `HANDLE`, `AWAITER`, plus the
awaiter-slot lock bit) and `REFERENCE`, the least-significant bit of the
reference-count field, sitting directly above the flag region. -/
def SCHEDULED : Nat := 1

/-- Modelled from the spec: flag bit — a worker has exclusive execution rights. -/
def RUNNING : Nat := 2

/-- Modelled from the spec: flag bit — the computation finished and produced an output. -/
def COMPLETED : Nat := 4

/-- Modelled from the spec: flag bit — cancellation requested or output already taken. -/
def CLOSED : Nat := 8

/-- Modelled from the spec: flag bit — a live observer handle exists. -/
def HANDLE : Nat := 16

/-- Modelled from the spec: flag bit — an awaiter is registered in the awaiter slot. -/
def AWAITER : Nat := 32

/-- Modelled from the spec: the lock bit protecting the awaiter slot. -/
def LOCKED : Nat := 64

/-- Modelled from the spec: increment of the reference-count field, which
occupies all bits above the flag region. -/
def REFERENCE : Nat := 128

/-- All-ones 64-bit word, used to model bitwise complement on `usize`. -/
def UMASK : Nat := 2 ^ 64 - 1

/-- Complement of a mask inside a 64-bit word: `!m` in the Rust source.
For a mask `m ≤ UMASK` the subtraction borrows nowhere, so it flips exactly
the bits of `m`. -/
def not64 (m : Nat) : Nat := UMASK - m

/-- Modelled from the spec: the reference count is the part of the state word
above the flag region, i.e. the word divided by `REFERENCE`. -/
def refCount (s : Nat) : Nat := s / REFERENCE

/-- Outcome of one successful pass of the `ProcHandle::cancel` CAS loop. -/
structure CancelOut where
  state : Nat
  scheduleCalled : Bool
  notified : Bool
deriving DecidableEq, Repr

/-- One successful pass of the compare-exchange loop in `ProcHandle::cancel`
(`proc_handle.rs` lines 44–81).  If the task is completed or closed the loop
breaks without touching anything.  Otherwise, if the task is neither scheduled
nor running, the new word is `(state | SCHEDULED | CLOSED) + REFERENCE` and the
vtable `schedule` callback runs; otherwise the new word is `state | CLOSED`.
After a successful CAS the awaiter is notified when the pre-transition word
had `AWAITER` set. -/
def cancelStep (s : Nat) : CancelOut :=
  if s &&& (COMPLETED ||| CLOSED) ≠ 0 then
    ⟨s, false, false⟩
  else if s &&& (SCHEDULED ||| RUNNING) = 0 then
    ⟨(s ||| SCHEDULED ||| CLOSED) + REFERENCE, true, s &&& AWAITER != 0⟩
  else
    ⟨s ||| CLOSED, false, s &&& AWAITER != 0⟩

theorem land_two_pow_ne_zero_iff (s k : Nat) : s &&& 2 ^ k ≠ 0 ↔ s.testBit k := by
  rw [Nat.and_two_pow]
  cases h : s.testBit k <;> simp [h]

theorem land_flag_ne (x m k : Nat) (h : m = 2 ^ k) : x &&& m ≠ 0 ↔ x.testBit k := by
  subst h
  exact land_two_pow_ne_zero_iff x k

theorem shiftRight_lor (a b k : Nat) : (a ||| b) >>> k = (a >>> k) ||| (b >>> k) := by
  apply Nat.eq_of_testBit_eq
  intro i
  simp [Nat.testBit_shiftRight, Nat.testBit_or]

theorem shiftRight_land (a b k : Nat) : (a &&& b) >>> k = (a >>> k) &&& (b >>> k) := by
  apply Nat.eq_of_testBit_eq
  intro i
  simp [Nat.testBit_shiftRight, Nat.testBit_and]

theorem land_lor_distrib (a b c : Nat) : (a ||| b) &&& c = (a &&& c) ||| (b &&& c) := by
  apply Nat.eq_of_testBit_eq
  intro i
  simp only [Nat.testBit_and, Nat.testBit_or]
  cases a.testBit i <;> cases b.testBit i <;> cases c.testBit i <;> rfl

theorem refCount_lor_low (s m : Nat) (hm : m < REFERENCE) :
    refCount (s ||| m) = refCount s := by
  have h7 : REFERENCE = 2 ^ 7 := by decide
  unfold refCount
  rw [h7, ← Nat.shiftRight_eq_div_pow, ← Nat.shiftRight_eq_div_pow, shiftRight_lor]
  have hz : m >>> 7 = 0 := by
    rw [Nat.shiftRight_eq_div_pow]
    exact Nat.div_eq_of_lt (by rw [h7] at hm; exact hm)
  rw [hz, Nat.or_zero]

/-- Adding `REFERENCE = 2 ^ 7` to a word leaves every bit below position 7
unchanged: the carry propagates only upward. -/
theorem testBit_add_ref (x k : Nat) (hk : k < 7) :
    (x + REFERENCE).testBit k = x.testBit k := by
  have hr : REFERENCE = 2 ^ k * 2 ^ (7 - k) := by
    rw [← Nat.pow_add]
    have h7 : k + (7 - k) = 7 := by omega
    rw [h7]
    decide
  rw [Nat.testBit_to_div_mod, Nat.testBit_to_div_mod, hr,
    Nat.add_mul_div_left _ _ (Nat.two_pow_pos k), decide_eq_decide]
  have hev : 2 ^ (7 - k) % 2 = 0 := by
    obtain ⟨j, hj⟩ : ∃ j, 7 - k = j + 1 := ⟨6 - k, by omega⟩
    rw [hj, Nat.pow_succ, Nat.mul_mod_left]
  omega

/-- Claim C1: for a state word in which neither `COMPLETED` nor `CLOSED` is
set, one pass of `ProcHandle::cancel` performs exactly one of two transitions.
If neither `SCHEDULED` nor `RUNNING` is set, it produces
`(state | SCHEDULED | CLOSED) + REFERENCE` — setting `SCHEDULED` and `CLOSED`
and raising the reference count by one — and invokes the vtable `schedule`
callback; otherwise it only ORs `CLOSED` into the word.  In either case, the
awaiter is notified iff `AWAITER` was set in the pre-transition word. -/
theorem cancel_not_done (s : Nat) (h : s &&& (COMPLETED ||| CLOSED) = 0) :
    (s &&& (SCHEDULED ||| RUNNING) = 0 →
      cancelStep s = ⟨(s ||| SCHEDULED ||| CLOSED) + REFERENCE, true, s &&& AWAITER != 0⟩ ∧
      refCount (cancelStep s).state = refCount s + 1 ∧
      (cancelStep s).state &&& SCHEDULED ≠ 0 ∧
      (cancelStep s).state &&& CLOSED ≠ 0) ∧
    (s &&& (SCHEDULED ||| RUNNING) ≠ 0 →
      cancelStep s = ⟨s ||| CLOSED, false, s &&& AWAITER != 0⟩) ∧
    ((cancelStep s).notified = true ↔ s &&& AWAITER ≠ 0) := by
  have hsplit : s ||| SCHEDULED ||| CLOSED = s ||| 9 := by
    rw [Nat.lor_assoc]
    congr 1
  refine ⟨?_, ?_, ?_⟩
  · intro hnr
    have hstate : (cancelStep s).state = (s ||| SCHEDULED ||| CLOSED) + REFERENCE := by
      simp [cancelStep, h, hnr]
    refine ⟨by simp [cancelStep, h, hnr], ?_, ?_, ?_⟩
    · rw [hstate, hsplit]
      show ((s ||| 9) + 128) / 128 = s / 128 + 1
      have h9 := refCount_lor_low s 9 (by decide)
      simp only [refCount, REFERENCE] at h9
      omega
    · rw [hstate, hsplit, land_flag_ne _ SCHEDULED 0 (by decide),
        testBit_add_ref _ 0 (by norm_num)]
      have h90 : (9 : Nat).testBit 0 = true := by decide
      simp [Nat.testBit_or, h90]
    · rw [hstate, hsplit, land_flag_ne _ CLOSED 3 (by decide),
        testBit_add_ref _ 3 (by norm_num)]
      have h93 : (9 : Nat).testBit 3 = true := by decide
      simp [Nat.testBit_or, h93]
  · intro hsr
    simp [cancelStep, h, hsr]
  · by_cases hsr : s &&& (SCHEDULED ||| RUNNING) = 0 <;>
      simp [cancelStep, h, hsr, bne_iff_ne]

theorem cancel_not_done_witness :
    (32 : Nat) &&& (COMPLETED ||| CLOSED) = 0 ∧
    ((32 : Nat) &&& (SCHEDULED ||| RUNNING) = 0 ∧
      cancelStep 32 = ⟨(32 ||| SCHEDULED ||| CLOSED) + REFERENCE, true, (32 : Nat) &&& AWAITER != 0⟩ ∧
      refCount (cancelStep 32).state = refCount 32 + 1) ∧
    ((cancelStep 32).notified = true ↔ (32 : Nat) &&& AWAITER ≠ 0) := by
  refine ⟨by decide, ⟨by decide, ?_, ?_⟩, ?_⟩
  · exact ((cancel_not_done 32 (by decide)).1 (by decide)).1
  · exact ((cancel_not_done 32 (by decide)).1 (by decide)).2.1
  · exact (cancel_not_done 32 (by decide)).2.2

/-- Claim C4: for a state word in which `COMPLETED` or `CLOSED` is set,
`ProcHandle::cancel` breaks out of its loop immediately: the word is left
unchanged, the `schedule` callback is not invoked, and no awaiter is
notified. -/
theorem cancel_done_noop (s : Nat) (h : s &&& (COMPLETED ||| CLOSED) ≠ 0) :
    cancelStep s = ⟨s, false, false⟩ := by
  simp [cancelStep, h]

theorem cancel_done_noop_witness :
    (COMPLETED : Nat) &&& (COMPLETED ||| CLOSED) ≠ 0 ∧
    cancelStep COMPLETED = ⟨COMPLETED, false, false⟩ :=
  ⟨by decide, cancel_done_noop COMPLETED (by decide)⟩

theorem land_lor_distrib_left (a b c : Nat) : a &&& (b ||| c) = (a &&& b) ||| (a &&& c) := by
  apply Nat.eq_of_testBit_eq
  intro i
  simp only [Nat.testBit_and, Nat.testBit_or]
  cases a.testBit i <;> cases b.testBit i <;> cases c.testBit i <;> rfl

theorem lor_eq_zero_iff (a b : Nat) : a ||| b = 0 ↔ a = 0 ∧ b = 0 := by
  constructor
  · intro h
    constructor
    · by_contra ha
      obtain ⟨i, hi⟩ := Nat.ne_zero_implies_bit_true ha
      have : (a ||| b).testBit i = true := by simp [Nat.testBit_or, hi]
      rw [h] at this
      simp at this
    · by_contra hb
      obtain ⟨i, hi⟩ := Nat.ne_zero_implies_bit_true hb
      have : (a ||| b).testBit i = true := by simp [Nat.testBit_or, hi]
      rw [h] at this
      simp at this
  · rintro ⟨rfl, rfl⟩
    rfl

theorem lor_lt_two_pow {a b n : Nat} (ha : a < 2 ^ n) (hb : b < 2 ^ n) :
    a ||| b < 2 ^ n := by
  apply Nat.lt_pow_two_of_testBit
  intro i hi
  have hta : a.testBit i = false := Nat.testBit_lt_two_pow (Nat.lt_of_lt_of_le ha (Nat.pow_le_pow_right (by norm_num) hi))
  have htb : b.testBit i = false := Nat.testBit_lt_two_pow (Nat.lt_of_lt_of_le hb (Nat.pow_le_pow_right (by norm_num) hi))
  simp [Nat.testBit_or, hta, htb]

/-- Clearing the `HANDLE` bit does not touch the reference-count field. -/
theorem refCount_clear_handle (x : Nat) (hx : x < 2 ^ 64) :
    refCount (x &&& not64 HANDLE) = refCount x := by
  have h7 : REFERENCE = 2 ^ 7 := by decide
  have hM : not64 HANDLE >>> 7 = 2 ^ 57 - 1 := by decide
  show (x &&& not64 HANDLE) / REFERENCE = x / REFERENCE
  rw [h7, ← Nat.shiftRight_eq_div_pow, ← Nat.shiftRight_eq_div_pow, shiftRight_land, hM,
    Nat.and_pow_two_sub_one_eq_mod]
  apply Nat.mod_eq_of_lt
  rw [Nat.shiftRight_eq_div_pow]
  have h1 : (2 : Nat) ^ 7 = 128 := by norm_num
  have h2 : (2 : Nat) ^ 57 = 144115188075855872 := by norm_num
  have h3 : (2 : Nat) ^ 64 = 18446744073709551616 := by norm_num
  rw [h1, h2]
  rw [h3] at hx
  omega

/-- Effect run by the tail of `impl Drop for ProcHandle` after its final
successful CAS. -/
inductive DropEffect where
  | nothing
  | scheduleCall
  | destroyCall
deriving DecidableEq, Repr

/-- Outcome of `impl Drop for ProcHandle` on the task state word. -/
structure DropOut where
  state : Nat
  consumedOutput : Bool
  effect : DropEffect
deriving DecidableEq, Repr

/-- The final successful CAS pass of the slow-path loop in
`impl Drop for ProcHandle` (`proc_handle.rs` lines 137–169): the arm taken
when the task is not in the completed-but-unclosed case.  If this is the last
reference and the task is not closed (`state & (!(REFERENCE - 1) | CLOSED) ==
0`), the word becomes `SCHEDULED | CLOSED | REFERENCE` and `schedule` runs so
the executor drops the future.  Otherwise `HANDLE` is cleared; if the count
field was zero, `schedule` or `destroy` runs depending on `CLOSED`. -/
def dropFinish (s1 : Nat) (consumed : Bool) : DropOut :=
  if s1 &&& (not64 (REFERENCE - 1) ||| CLOSED) = 0 then
    ⟨SCHEDULED ||| CLOSED ||| REFERENCE, consumed, DropEffect.scheduleCall⟩
  else
    ⟨s1 &&& not64 HANDLE, consumed,
      if s1 &&& not64 (REFERENCE - 1) = 0 then
        (if s1 &&& CLOSED = 0 then DropEffect.scheduleCall else DropEffect.destroyCall)
      else DropEffect.nothing⟩

/-- A sequential (interference-free) run of `impl Drop for ProcHandle`
(`proc_handle.rs` lines 98–177).  The fast path fires when the word equals
exactly `SCHEDULED | HANDLE | REFERENCE` and exchanges it for
`SCHEDULED | REFERENCE`.  Otherwise the loop runs: the completed-but-unclosed
arm executes at most once (it ORs `CLOSED` in and reads the output out of the
slot), after which the other arm performs the final CAS and exits. -/
def dropHandleStep (s : Nat) : DropOut :=
  if s = SCHEDULED ||| HANDLE ||| REFERENCE then
    ⟨SCHEDULED ||| REFERENCE, false, DropEffect.nothing⟩
  else if s &&& COMPLETED ≠ 0 ∧ s &&& CLOSED = 0 then
    dropFinish (s ||| CLOSED) true
  else
    dropFinish s false

theorem dropFinish_handle_clear (s1 : Nat) (c : Bool) :
    (dropFinish s1 c).state &&& HANDLE = 0 := by
  unfold dropFinish
  split
  · show (SCHEDULED ||| CLOSED ||| REFERENCE : Nat) &&& HANDLE = 0
    decide
  · show (s1 &&& not64 HANDLE) &&& HANDLE = 0
    rw [Nat.and_assoc]
    have : not64 HANDLE &&& HANDLE = 0 := by decide
    rw [this, Nat.and_zero]

theorem dropFinish_refCount (s1 : Nat) (c : Bool) (hs1 : s1 < 2 ^ 64) :
    refCount (dropFinish s1 c).state = refCount s1 ∨
      (dropFinish s1 c).state = SCHEDULED ||| CLOSED ||| REFERENCE := by
  unfold dropFinish
  split
  · exact Or.inr rfl
  · exact Or.inl (refCount_clear_handle s1 hs1)

/-- Claim C3, counterexample: on the fast path — state exactly
`SCHEDULED | HANDLE | REFERENCE` — dropping the handle leaves the reference
count unchanged at one; it does not decrement it.  The handle is tracked by
the `HANDLE` flag, not by the count field. -/
theorem drop_refcount_cex :
    refCount (dropHandleStep (SCHEDULED ||| HANDLE ||| REFERENCE)).state =
      refCount (SCHEDULED ||| HANDLE ||| REFERENCE) ∧
    refCount (SCHEDULED ||| HANDLE ||| REFERENCE) = 1 ∧
    (dropHandleStep (SCHEDULED ||| HANDLE ||| REFERENCE)).state = SCHEDULED ||| REFERENCE := by
  decide

/-- Claim C3 as amended: dropping a `ProcHandle` clears the `HANDLE` flag and
does not subtract `REFERENCE` from the word: the resulting count field either
equals the old one, or — when the handle was the last reference to an unclosed
task — the word is reset to `SCHEDULED | CLOSED | REFERENCE` so the executor
can drop the future.  In particular the fast path, taken when the state equals
exactly `SCHEDULED | HANDLE | REFERENCE`, clears `HANDLE` in a single
compare-exchange, leaving the single `REFERENCE` in place. -/
theorem drop_clears_handle (s : Nat) (hs : s < 2 ^ 64) :
    (dropHandleStep s).state &&& HANDLE = 0 ∧
    (refCount (dropHandleStep s).state = refCount s ∨
      (dropHandleStep s).state = SCHEDULED ||| CLOSED ||| REFERENCE) ∧
    dropHandleStep (SCHEDULED ||| HANDLE ||| REFERENCE) =
      ⟨SCHEDULED ||| REFERENCE, false, DropEffect.nothing⟩ := by
  refine ⟨?_, ?_, by decide⟩
  · unfold dropHandleStep
    split
    · decide
    · split
      · exact dropFinish_handle_clear _ _
      · exact dropFinish_handle_clear _ _
  · unfold dropHandleStep
    split
    · rename_i he
      rw [he]
      left
      decide
    · split
      · rename_i hc
        have hlt : s ||| CLOSED < 2 ^ 64 := lor_lt_two_pow hs (by norm_num [CLOSED])
        rcases dropFinish_refCount (s ||| CLOSED) true hlt with h1 | h1
        · left
          rw [h1, refCount_lor_low s CLOSED (by decide)]
        · right
          exact h1
      · exact dropFinish_refCount s false hs

theorem drop_clears_handle_witness :
    (SCHEDULED ||| HANDLE ||| REFERENCE : Nat) < 2 ^ 64 ∧
    (dropHandleStep (SCHEDULED ||| HANDLE ||| REFERENCE)).state &&& HANDLE = 0 ∧
    refCount (dropHandleStep (SCHEDULED ||| HANDLE ||| REFERENCE)).state =
      refCount (SCHEDULED ||| HANDLE ||| REFERENCE) := by
  refine ⟨by decide, (drop_clears_handle _ (by decide)).1, ?_⟩
  rcases (drop_clears_handle (SCHEDULED ||| HANDLE ||| REFERENCE) (by decide)).2.1 with h | h
  · exact h
  · exact absurd h (by decide)

/-- Result of polling a `ProcHandle`: `Poll::Pending`, `Poll::Ready(None)`
(cancellation) or `Poll::Ready(Some(output))`. -/
inductive PollRes where
  | pending
  | cancelled
  | output
deriving DecidableEq, Repr

/-- Outcome of one pass of `Future::poll` for `ProcHandle`: new state word,
new awaiter slot, result, whether a stored awaiter was actually woken, and
whether the output was moved out of the slot. -/
structure PollOut where
  state : Nat
  slot : Option Nat
  res : PollRes
  notifiedStored : Bool
  consumedOutput : Bool
deriving DecidableEq, Repr

/-- Modelled from the spec (§4.D): `proc_data.rs` is not under `src/`.  The
awaiter slot holds at most one wake-up; `notify_unless(current)` takes the
stored wake-up out and invokes it only if it differs from `current`.  Wakers
are abstract tokens (`Nat`); `will_wake` is token equality.  Returns the pair
(invoked, slot afterwards). -/
def notifyUnless (slot : Option Nat) (cur : Nat) : Bool × Option Nat :=
  match slot with
  | none => (false, none)
  | some w => (w != cur, none)

/-- One pass of `impl Future for ProcHandle`'s `poll` (`proc_handle.rs` lines
182–246).  `s` is the state observed by the initial load; `reload` is the
state observed by the re-load performed after `swap_awaiter` registers the
caller's waker (an oracle for whatever ran concurrently in between); `slot` is
the awaiter slot content at entry and `cur` the caller's waker.  The
compare-exchange installing `CLOSED` is modelled by its successful pass. -/
def pollStep (s reload : Nat) (slot : Option Nat) (cur : Nat) : PollOut :=
  if s &&& CLOSED ≠ 0 then
    ⟨s, (notifyUnless slot cur).2, PollRes.cancelled, (notifyUnless slot cur).1, false⟩
  else if s &&& COMPLETED = 0 then
    if reload &&& CLOSED ≠ 0 then
      ⟨reload, (notifyUnless (some cur) cur).2, PollRes.cancelled,
        (notifyUnless (some cur) cur).1, false⟩
    else if reload &&& COMPLETED = 0 then
      ⟨reload, some cur, PollRes.pending, false, false⟩
    else
      ⟨reload ||| CLOSED,
        (if reload &&& AWAITER ≠ 0 then (notifyUnless (some cur) cur).2 else some cur),
        PollRes.output,
        (if reload &&& AWAITER ≠ 0 then (notifyUnless (some cur) cur).1 else false),
        true⟩
  else
    ⟨s ||| CLOSED,
      (if s &&& AWAITER ≠ 0 then (notifyUnless slot cur).2 else slot),
      PollRes.output,
      (if s &&& AWAITER ≠ 0 then (notifyUnless slot cur).1 else false),
      true⟩

/-- Claim C2: polling a `ProcHandle` resolves to `Ready(None)` whenever
`CLOSED` is set in the observed state; if `COMPLETED` is not set it stores the
caller's waker in the awaiter slot, re-loads the state, re-checks `CLOSED`
and `COMPLETED`, and returns `Pending` exactly when the re-loaded state still
has neither; and if `COMPLETED` is set (and `CLOSED` is not) it ORs `CLOSED`
in via compare-exchange, moves the output out of the slot, returns
`Ready(Some(output))`, and wakes the stored awaiter iff `AWAITER` was set and
the stored waker differs from the caller's. -/
theorem poll_contract (s reload : Nat) (slot : Option Nat) (cur : Nat) :
    (s &&& CLOSED ≠ 0 →
      (pollStep s reload slot cur).res = PollRes.cancelled ∧
      (pollStep s reload slot cur).consumedOutput = false ∧
      (pollStep s reload slot cur).state = s) ∧
    (s &&& CLOSED = 0 → s &&& COMPLETED = 0 →
      ((pollStep s reload slot cur).res = PollRes.pending ↔
        (reload &&& CLOSED = 0 ∧ reload &&& COMPLETED = 0)) ∧
      (reload &&& CLOSED = 0 → reload &&& COMPLETED = 0 →
        pollStep s reload slot cur = ⟨reload, some cur, PollRes.pending, false, false⟩) ∧
      (reload &&& CLOSED ≠ 0 →
        (pollStep s reload slot cur).res = PollRes.cancelled ∧
        (pollStep s reload slot cur).consumedOutput = false)) ∧
    (s &&& CLOSED = 0 → s &&& COMPLETED ≠ 0 →
      (pollStep s reload slot cur).state = s ||| CLOSED ∧
      (pollStep s reload slot cur).res = PollRes.output ∧
      (pollStep s reload slot cur).consumedOutput = true ∧
      ((pollStep s reload slot cur).notifiedStored = true ↔
        (s &&& AWAITER ≠ 0 ∧ ∃ w, slot = some w ∧ w ≠ cur))) := by
  refine ⟨?_, ?_, ?_⟩
  · intro h
    simp [pollStep, h]
  · intro hcl hco
    refine ⟨?_, ?_, ?_⟩
    · by_cases hrc : reload &&& CLOSED = 0 <;>
        by_cases hrp : reload &&& COMPLETED = 0 <;>
          simp [pollStep, hcl, hco, hrc, hrp]
    · intro hrc hrp
      simp [pollStep, hcl, hco, hrc, hrp]
    · intro hrc
      simp [pollStep, hcl, hco, hrc]
  · intro hcl hco
    refine ⟨?_, ?_, ?_, ?_⟩
    · simp [pollStep, hcl, hco]
    · simp [pollStep, hcl, hco]
    · simp [pollStep, hcl, hco]
    · cases slot with
      | none =>
        by_cases ha : s &&& AWAITER ≠ 0 <;>
          simp [pollStep, notifyUnless, hcl, hco, ha]
      | some w =>
        by_cases ha : s &&& AWAITER ≠ 0 <;>
          simp [pollStep, notifyUnless, hcl, hco, ha, bne_iff_ne]

theorem poll_contract_witness :
    (COMPLETED : Nat) &&& CLOSED = 0 ∧ (COMPLETED : Nat) &&& COMPLETED ≠ 0 ∧
    (pollStep COMPLETED 0 (some 5) 3).state = COMPLETED ||| CLOSED ∧
    (pollStep COMPLETED 0 (some 5) 3).res = PollRes.output ∧
    (pollStep COMPLETED 0 (some 5) 3).consumedOutput = true := by
  have h := (poll_contract COMPLETED 0 (some 5) 3).2.2 (by decide) (by decide)
  exact ⟨by decide, by decide, h.1, h.2.1, h.2.2.1⟩

theorem land_lor_eq_zero_right (s a b : Nat) (h : s &&& (a ||| b) = 0) : s &&& b = 0 := by
  rw [land_lor_distrib_left] at h
  exact ((lor_eq_zero_iff _ _).1 h).2

theorem lor_closed_ne (x : Nat) : (x ||| CLOSED) &&& CLOSED ≠ 0 := by
  rw [land_lor_distrib]
  intro h0
  exact absurd ((lor_eq_zero_iff _ _).1 h0).2 (by decide)

theorem dropFinish_consumed (s1 : Nat) (c : Bool) : (dropFinish s1 c).consumedOutput = c := by
  unfold dropFinish
  split <;> rfl

/-- State of one task as seen by its observers: the state word and the
awaiter slot. -/
structure TaskSim where
  word : Nat
  slot : Option Nat
deriving DecidableEq, Repr

/-- An observer-side operation on the task: a handle poll with the caller's
waker, or the handle drop. -/
inductive HOp where
  | poll (cur : Nat)
  | dropHandle
deriving DecidableEq, Repr

/-- Sequential (interference-free) run of one observer operation.  For a
poll, the re-load after `swap_awaiter` observes the word with `AWAITER` set
(modelled from the spec: registering a wake-up sets the `AWAITER` flag) and
the slot then holds the caller's waker.  Returns the new task state and
whether the operation moved the output out of the slot. -/
def hstep (t : TaskSim) : HOp → TaskSim × Bool
  | HOp.poll cur =>
    let o := pollStep t.word (t.word ||| AWAITER) t.slot cur
    (⟨o.state, o.slot⟩, o.consumedOutput)
  | HOp.dropHandle =>
    let o := dropHandleStep t.word
    (⟨o.state, t.slot⟩, o.consumedOutput)

def runSim (t : TaskSim) : List HOp → TaskSim
  | [] => t
  | op :: ops => runSim (hstep t op).1 ops

/-- Number of operations in the sequence that move the output out of the
slot. -/
def consumedCount (t : TaskSim) : List HOp → Nat
  | [] => 0
  | op :: ops => (if (hstep t op).2 then 1 else 0) + consumedCount (hstep t op).1 ops

/-- Every poll in the sequence resolves to `Ready(None)`. -/
def pollsAllCancelled (t : TaskSim) : List HOp → Prop
  | [] => True
  | op :: ops =>
      (∀ cur, op = HOp.poll cur →
        (pollStep t.word (t.word ||| AWAITER) t.slot cur).res = PollRes.cancelled) ∧
      pollsAllCancelled (hstep t op).1 ops

theorem hstep_closed (t : TaskSim) (op : HOp) (h : t.word &&& CLOSED ≠ 0) :
    (hstep t op).1.word &&& CLOSED ≠ 0 ∧ (hstep t op).2 = false := by
  cases op with
  | poll cur =>
    simp only [hstep, pollStep, if_pos h]
    exact ⟨h, trivial⟩
  | dropHandle =>
    have hne : t.word ≠ SCHEDULED ||| HANDLE ||| REFERENCE := by
      intro he
      rw [he] at h
      exact h (by decide)
    have hguard : ¬ (t.word &&& COMPLETED ≠ 0 ∧ t.word &&& CLOSED = 0) := fun hc => h hc.2
    have hg2 : ¬ t.word &&& (not64 (REFERENCE - 1) ||| CLOSED) = 0 := by
      intro h0
      exact h (land_lor_eq_zero_right _ _ _ h0)
    simp only [hstep, dropHandleStep, if_neg hne, if_neg hguard, dropFinish, if_neg hg2]
    refine ⟨?_, trivial⟩
    rw [Nat.and_assoc]
    have h8 : not64 HANDLE &&& CLOSED = CLOSED := by decide
    rw [h8]
    exact h

theorem hstep_consume_closes (t : TaskSim) (op : HOp) (h : (hstep t op).2 = true) :
    (hstep t op).1.word &&& CLOSED ≠ 0 := by
  cases op with
  | poll cur =>
    by_cases h1 : t.word &&& CLOSED = 0
    · by_cases h2 : t.word &&& COMPLETED = 0
      · by_cases h3 : (t.word ||| AWAITER) &&& CLOSED = 0
        · by_cases h4 : (t.word ||| AWAITER) &&& COMPLETED = 0
          · simp [hstep, pollStep, h1, h2, h3, h4] at h
          · simp [hstep, pollStep, h1, h2, h3, h4]
            exact lor_closed_ne _
        · simp [hstep, pollStep, h1, h2, h3] at h
      · simp [hstep, pollStep, h1, h2]
        exact lor_closed_ne _
    · simp [hstep, pollStep, h1] at h
  | dropHandle =>
    by_cases h1 : t.word = SCHEDULED ||| HANDLE ||| REFERENCE
    · simp [hstep, dropHandleStep, h1] at h
    · by_cases h2 : t.word &&& COMPLETED ≠ 0 ∧ t.word &&& CLOSED = 0
      · simp only [hstep, dropHandleStep, if_neg h1, if_pos h2, dropFinish]
        split
        · show (SCHEDULED ||| CLOSED ||| REFERENCE : Nat) &&& CLOSED ≠ 0
          decide
        · show ((t.word ||| CLOSED) &&& not64 HANDLE) &&& CLOSED ≠ 0
          rw [Nat.and_assoc]
          have h8 : not64 HANDLE &&& CLOSED = CLOSED := by decide
          rw [h8]
          exact lor_closed_ne _
      · simp only [hstep, dropHandleStep, if_neg h1, if_neg h2] at h
        rw [dropFinish_consumed] at h
        exact absurd h (by decide)

theorem hstep_consume_requires (t : TaskSim) (op : HOp) (h : (hstep t op).2 = true) :
    t.word &&& COMPLETED ≠ 0 ∧ t.word &&& CLOSED = 0 := by
  cases op with
  | poll cur =>
    by_cases h1 : t.word &&& CLOSED = 0
    · by_cases h2 : t.word &&& COMPLETED = 0
      · have h4 : (t.word ||| AWAITER) &&& COMPLETED = 0 := by
          rw [land_lor_distrib, h2]
          have hAC : AWAITER &&& COMPLETED = 0 := by decide
          rw [hAC]
          decide
        by_cases h3 : (t.word ||| AWAITER) &&& CLOSED = 0
        · simp [hstep, pollStep, h1, h2, h3, h4] at h
        · simp [hstep, pollStep, h1, h2, h3] at h
      · exact ⟨h2, h1⟩
    · simp [hstep, pollStep, h1] at h
  | dropHandle =>
    by_cases h1 : t.word = SCHEDULED ||| HANDLE ||| REFERENCE
    · simp [hstep, dropHandleStep, h1] at h
    · by_cases h2 : t.word &&& COMPLETED ≠ 0 ∧ t.word &&& CLOSED = 0
      · exact h2
      · simp only [hstep, dropHandleStep, if_neg h1, if_neg h2] at h
        rw [dropFinish_consumed] at h
        exact absurd h (by decide)

theorem run_closed (ops : List HOp) (t : TaskSim) (h : t.word &&& CLOSED ≠ 0) :
    consumedCount t ops = 0 ∧ pollsAllCancelled t ops := by
  induction ops generalizing t with
  | nil => exact ⟨rfl, trivial⟩
  | cons op ops ih =>
    obtain ⟨hcl, hco⟩ := hstep_closed t op h
    obtain ⟨ih1, ih2⟩ := ih (hstep t op).1 hcl
    refine ⟨?_, ?_, ih2⟩
    · simp [consumedCount, hco, ih1]
    · intro cur hcur
      simp [pollStep, h]

/-- Claim C5: along any sequence of handle polls and handle drops on one
task, the output is moved out of the slot at most once; the operation that
consumes it starts from a word with `COMPLETED` set and `CLOSED` clear, sets
`CLOSED`, and afterwards nothing consumes again and every subsequent poll
resolves to `Ready(None)`. -/
theorem output_consumed_once (t : TaskSim) (ops : List HOp) :
    consumedCount t ops ≤ 1 ∧
    (∀ l op r, ops = l ++ op :: r → (hstep (runSim t l) op).2 = true →
      (runSim t l).word &&& COMPLETED ≠ 0 ∧
      (runSim t l).word &&& CLOSED = 0 ∧
      (hstep (runSim t l) op).1.word &&& CLOSED ≠ 0 ∧
      consumedCount (hstep (runSim t l) op).1 r = 0 ∧
      pollsAllCancelled (hstep (runSim t l) op).1 r) := by
  constructor
  · induction ops generalizing t with
    | nil => exact Nat.zero_le 1
    | cons op ops ih =>
      by_cases hc : (hstep t op).2 = true
      · have hcl := hstep_consume_closes t op hc
        have h0 := (run_closed ops (hstep t op).1 hcl).1
        simp [consumedCount, hc, h0]
      · have hc0 : (hstep t op).2 = false := by
          cases hb : (hstep t op).2
          · rfl
          · exact absurd hb hc
        simp only [consumedCount, hc0, if_false, Bool.false_eq_true, Nat.zero_add]
        exact ih (hstep t op).1
  · intro l op r hsplit hcons
    obtain ⟨hq1, hq2⟩ := hstep_consume_requires (runSim t l) op hcons
    have hcl := hstep_consume_closes (runSim t l) op hcons
    obtain ⟨hr1, hr2⟩ := run_closed r (hstep (runSim t l) op).1 hcl
    exact ⟨hq1, hq2, hcl, hr1, hr2⟩

theorem output_consumed_once_witness :
    consumedCount ⟨COMPLETED, none⟩ [HOp.poll 0, HOp.poll 1] ≤ 1 ∧
    consumedCount (hstep (runSim ⟨COMPLETED, none⟩ []) (HOp.poll 0)).1 [HOp.poll 1] = 0 := by
  constructor
  · exact (output_consumed_once ⟨COMPLETED, none⟩ [HOp.poll 0, HOp.poll 1]).1
  · exact ((output_consumed_once ⟨COMPLETED, none⟩ [HOp.poll 0, HOp.poll 1]).2
      [] (HOp.poll 0) [HOp.poll 1] rfl (by decide)).2.2.2.1

end LightProc

namespace Bastion

/-- Supervision messages (`BastionMessage` in `broadcast.rs`).  The opaque
user payload `Box<dyn Message>` is modelled as an abstract token; the
user-supplied clone (`objekt::clone_box`) yields a value-identical message. -/
inductive BastionMessage where
  | poisonPill
  | dead (id : Nat)
  | faulted (id : Nat)
  | message (payload : Nat)
deriving DecidableEq, Repr

/-- Send end of an unbounded channel (`UnboundedSender`).  `closed` is true
when the receiving end has been dropped, in which case `unbounded_send`
returns an error that the source discards with `.ok()`. -/
structure Sender where
  closed : Bool
deriving DecidableEq, Repr

/-- Destination of one `unbounded_send` call made by a bus. -/
inductive Target where
  | parent
  | child (id : Nat)
deriving DecidableEq, Repr

/-- One `unbounded_send` call, in chronological order of execution.
`delivered` is false when the channel was closed and the error was
discarded. -/
structure SendEvent where
  target : Target
  msg : BastionMessage
  delivered : Bool
deriving DecidableEq, Repr

/-- The broadcast bus (`Broadcast` in `broadcast.rs`): own id, own sender,
optional parent sender, and the registry mapping child ids to child senders.
`FxHashMap<Uuid, Sender>` is modelled as an association list with unique
keys; `Uuid` as `Nat`.  The own receiver only matters for the `Stream`
impl, which no claim touches, and is omitted. -/
structure Broadcast where
  id : Nat
  sender : Sender
  parent : Option Sender
  children : List (Nat × Sender)
deriving DecidableEq, Repr

/-- `Broadcast::send_parent` (`broadcast.rs` lines 104–110): if a parent is
present, one `unbounded_send` to it, errors discarded; otherwise nothing. -/
def Broadcast.send_parent (b : Broadcast) (msg : BastionMessage) :
    Broadcast × List SendEvent :=
  match b.parent with
  | none => (b, [])
  | some p => (b, [⟨Target.parent, msg, !p.closed⟩])

/-- `Broadcast::send_child` (lines 112–118): if the registry has the id, one
`unbounded_send` to that child, errors discarded; otherwise nothing. -/
def Broadcast.send_child (b : Broadcast) (id : Nat) (msg : BastionMessage) :
    Broadcast × List SendEvent :=
  match b.children.lookup id with
  | none => (b, [])
  | some c => (b, [⟨Target.child id, msg, !c.closed⟩])

/-- `Broadcast::send_children` (lines 120–125): one `unbounded_send` of a
clone of the message per registry entry, errors discarded. -/
def Broadcast.send_children (b : Broadcast) (msg : BastionMessage) :
    Broadcast × List SendEvent :=
  (b, b.children.map (fun c => ⟨Target.child c.1, msg, !c.2.closed⟩))

/-- `Broadcast::clear_children` (lines 100–102). -/
def Broadcast.clear_children (b : Broadcast) : Broadcast :=
  { b with children := [] }

/-- `Broadcast::remove_child` (lines 96–98): `children.remove(id).is_some()`. -/
def Broadcast.remove_child (b : Broadcast) (id : Nat) : Broadcast × Bool :=
  ({ b with children := b.children.filter (fun c => c.1 != id) },
    (b.children.lookup id).isSome)

/-- `Broadcast::poison_pill_children` (lines 74–77): send `PoisonPill` to all
children, then clear the registry. -/
def Broadcast.poison_pill_children (b : Broadcast) : Broadcast × List SendEvent :=
  let r := b.send_children BastionMessage.poisonPill
  (r.1.clear_children, r.2)

/-- `Broadcast::dead` (lines 79–82): poison the children, then notify the
parent with `Dead { id: self.id }`. -/
def Broadcast.dead (b : Broadcast) : Broadcast × List SendEvent :=
  let r1 := b.poison_pill_children
  let r2 := r1.1.send_parent (BastionMessage.dead r1.1.id)
  (r2.1, r1.2 ++ r2.2)

/-- `Broadcast::faulted` (lines 84–87): poison the children, then notify the
parent with `Faulted { id: self.id }`. -/
def Broadcast.faulted (b : Broadcast) : Broadcast × List SendEvent :=
  let r1 := b.poison_pill_children
  let r2 := r1.1.send_parent (BastionMessage.faulted r1.1.id)
  (r2.1, r1.2 ++ r2.2)

theorem append_partition_lt2 {p : SendEvent → Prop} {A B : List SendEvent}
    (hA : ∀ e ∈ A, ¬ p e) (hB : ∀ e ∈ B, p e)
    (i j : Nat) (ei ej : SendEvent)
    (hgi : (A ++ B)[i]? = some ei) (hgj : (A ++ B)[j]? = some ej)
    (hpi : ¬ p ei) (hpj : p ej) : i < j := by
  have hiA : i < A.length := by
    by_contra hge
    push_neg at hge
    rw [List.getElem?_append_right hge] at hgi
    exact hpi (hB _ (List.getElem?_mem hgi))
  have hjB : A.length ≤ j := by
    by_contra hlt
    push_neg at hlt
    rw [List.getElem?_append_left hlt] at hgj
    exact hA _ (List.getElem?_mem hgj) hpj
  omega

/-- Claim C6: `dead()` first enqueues one `PoisonPill` to every child in the
registry and empties the registry, and only then sends `Dead { id }` with the
bus's own id to the parent (when present); `faulted()` is identical with
`Faulted`.  In the chronological event list every child-directed event
strictly precedes every parent-directed one. -/
theorem dead_poisons_children_first (b : Broadcast) :
    b.dead.2 =
      b.children.map (fun c => ⟨Target.child c.1, BastionMessage.poisonPill, !c.2.closed⟩) ++
        (match b.parent with
         | none => []
         | some p => [⟨Target.parent, BastionMessage.dead b.id, !p.closed⟩]) ∧
    b.dead.1.children = [] ∧
    b.faulted.2 =
      b.children.map (fun c => ⟨Target.child c.1, BastionMessage.poisonPill, !c.2.closed⟩) ++
        (match b.parent with
         | none => []
         | some p => [⟨Target.parent, BastionMessage.faulted b.id, !p.closed⟩]) ∧
    b.faulted.1.children = [] ∧
    (∀ (i j : Nat) (ei ej : SendEvent), b.dead.2[i]? = some ei → b.dead.2[j]? = some ej →
      ei.target ≠ Target.parent → ej.target = Target.parent → i < j) ∧
    (∀ (i j : Nat) (ei ej : SendEvent), b.faulted.2[i]? = some ei → b.faulted.2[j]? = some ej →
      ei.target ≠ Target.parent → ej.target = Target.parent → i < j) := by
  have hdead : b.dead.2 =
      b.children.map (fun c => ⟨Target.child c.1, BastionMessage.poisonPill, !c.2.closed⟩) ++
        (match b.parent with
         | none => []
         | some p => [⟨Target.parent, BastionMessage.dead b.id, !p.closed⟩]) := by
    cases hp : b.parent <;>
      simp [Broadcast.dead, Broadcast.poison_pill_children, Broadcast.send_children,
        Broadcast.clear_children, Broadcast.send_parent, hp]
  have hfaulted : b.faulted.2 =
      b.children.map (fun c => ⟨Target.child c.1, BastionMessage.poisonPill, !c.2.closed⟩) ++
        (match b.parent with
         | none => []
         | some p => [⟨Target.parent, BastionMessage.faulted b.id, !p.closed⟩]) := by
    cases hp : b.parent <;>
      simp [Broadcast.faulted, Broadcast.poison_pill_children, Broadcast.send_children,
        Broadcast.clear_children, Broadcast.send_parent, hp]
  have hAdead : ∀ e ∈ b.children.map
      (fun c => (⟨Target.child c.1, BastionMessage.poisonPill, !c.2.closed⟩ : SendEvent)),
      ¬ e.target = Target.parent := by
    intro e he
    obtain ⟨c, _, rfl⟩ := List.mem_map.1 he
    simp
  have hBdead : ∀ e ∈ (match b.parent with
       | none => ([] : List SendEvent)
       | some p => [⟨Target.parent, BastionMessage.dead b.id, !p.closed⟩]),
      e.target = Target.parent := by
    intro e he
    cases hp : b.parent with
    | none => rw [hp] at he; cases he
    | some p =>
      rw [hp] at he
      cases he with
      | head => rfl
      | tail _ h2 => cases h2
  have hBfaulted : ∀ e ∈ (match b.parent with
       | none => ([] : List SendEvent)
       | some p => [⟨Target.parent, BastionMessage.faulted b.id, !p.closed⟩]),
      e.target = Target.parent := by
    intro e he
    cases hp : b.parent with
    | none => rw [hp] at he; cases he
    | some p =>
      rw [hp] at he
      cases he with
      | head => rfl
      | tail _ h2 => cases h2
  refine ⟨hdead, ?_, hfaulted, ?_, ?_, ?_⟩
  · cases hp : b.parent <;>
      simp [Broadcast.dead, Broadcast.poison_pill_children, Broadcast.send_children,
        Broadcast.clear_children, Broadcast.send_parent, hp]
  · cases hp : b.parent <;>
      simp [Broadcast.faulted, Broadcast.poison_pill_children, Broadcast.send_children,
        Broadcast.clear_children, Broadcast.send_parent, hp]
  · intro i j ei ej hgi hgj hpi hpj
    rw [hdead] at hgi hgj
    exact append_partition_lt2 hAdead hBdead i j ei ej hgi hgj hpi hpj
  · intro i j ei ej hgi hgj hpi hpj
    rw [hfaulted] at hgi hgj
    exact append_partition_lt2 hAdead hBfaulted i j ei ej hgi hgj hpi hpj

/-- Claim C7: `send_children(m)` sends one clone of `m` to each registry
entry exactly once — entry `k` of the event list is the send to child `k` —
and leaves the bus unchanged; a send to a closed child channel is discarded
as a no-op and does not prevent the sends to the remaining children;
`send_parent` and `send_child` are no-ops when the parent or the named child
is absent, and discard the error when the channel is closed. -/
theorem send_children_exactly_once (b : Broadcast) (m : BastionMessage) (id : Nat) :
    (b.send_children m).1 = b ∧
    (b.send_children m).2 =
      b.children.map (fun c => ⟨Target.child c.1, m, !c.2.closed⟩) ∧
    (b.send_children m).2.length = b.children.length ∧
    (∀ k : Nat, (b.send_children m).2[k]? =
      (b.children[k]?).map (fun c => ⟨Target.child c.1, m, !c.2.closed⟩)) ∧
    (b.parent = none → b.send_parent m = (b, [])) ∧
    (∀ p, b.parent = some p → p.closed = true →
      b.send_parent m = (b, [⟨Target.parent, m, false⟩])) ∧
    (b.children.lookup id = none → b.send_child id m = (b, [])) ∧
    (∀ c, b.children.lookup id = some c → c.closed = true →
      b.send_child id m = (b, [⟨Target.child id, m, false⟩])) := by
  refine ⟨rfl, rfl, by simp [Broadcast.send_children], ?_, ?_, ?_, ?_, ?_⟩
  · intro k
    simp [Broadcast.send_children]
  · intro hp
    simp [Broadcast.send_parent, hp]
  · intro p hp hc
    simp [Broadcast.send_parent, hp, hc]
  · intro hl
    simp [Broadcast.send_child, hl]
  · intro c hl hc
    simp [Broadcast.send_child, hl, hc]

theorem send_children_exactly_once_witness :
    (Broadcast.send_children ⟨9, ⟨false⟩, some ⟨true⟩, [(1, ⟨false⟩), (2, ⟨true⟩)]⟩
        (BastionMessage.message 7)).2 =
      [⟨Target.child 1, BastionMessage.message 7, true⟩,
       ⟨Target.child 2, BastionMessage.message 7, false⟩] ∧
    Broadcast.send_parent ⟨9, ⟨false⟩, some ⟨true⟩, [(1, ⟨false⟩), (2, ⟨true⟩)]⟩
        (BastionMessage.message 7) =
      (⟨9, ⟨false⟩, some ⟨true⟩, [(1, ⟨false⟩), (2, ⟨true⟩)]⟩,
        [⟨Target.parent, BastionMessage.message 7, false⟩]) := by
  constructor
  · rw [(send_children_exactly_once ⟨9, ⟨false⟩, some ⟨true⟩, [(1, ⟨false⟩), (2, ⟨true⟩)]⟩
      (BastionMessage.message 7) 0).2.1]
    decide
  · exact (send_children_exactly_once ⟨9, ⟨false⟩, some ⟨true⟩, [(1, ⟨false⟩), (2, ⟨true⟩)]⟩
      (BastionMessage.message 7) 0).2.2.2.2.2.1 ⟨true⟩ rfl rfl

theorem lookup_isSome_iff (l : List (Nat × Sender)) (id : Nat) :
    (l.lookup id).isSome = true ↔ ∃ s, (id, s) ∈ l := by
  induction l with
  | nil => simp [List.lookup]
  | cons hd tl ih =>
    obtain ⟨k, v⟩ := hd
    by_cases hk : id = k
    · subst hk
      simp [List.lookup]
    · have hbeq : (id == k) = false := by
        simp [hk]
      simp only [List.lookup, hbeq]
      rw [ih]
      constructor
      · rintro ⟨s, hs⟩
        exact ⟨s, List.mem_cons_of_mem _ hs⟩
      · rintro ⟨s, hs⟩
        cases hs with
        | head => exact absurd rfl hk
        | tail _ h2 => exact ⟨s, h2⟩

/-- Claim C10: `remove_child(id)` returns true iff the registry had an entry
for `id`; afterwards the registry has no entry for `id` while every other
entry — and the rest of the bus — is unchanged. -/
theorem remove_child_spec (b : Broadcast) (id : Nat) :
    ((b.remove_child id).2 = true ↔ ∃ s, (id, s) ∈ b.children) ∧
    (∀ s, (id, s) ∉ (b.remove_child id).1.children) ∧
    (∀ e, e ∈ b.children → e.1 ≠ id → e ∈ (b.remove_child id).1.children) ∧
    (∀ e, e ∈ (b.remove_child id).1.children → e ∈ b.children ∧ e.1 ≠ id) ∧
    (b.remove_child id).1.id = b.id ∧
    (b.remove_child id).1.parent = b.parent ∧
    (b.remove_child id).1.sender = b.sender := by
  refine ⟨?_, ?_, ?_, ?_, rfl, rfl, rfl⟩
  · exact lookup_isSome_iff b.children id
  · intro s hs
    rw [Broadcast.remove_child] at hs
    simp only [List.mem_filter] at hs
    exact absurd hs.2 (by simp)
  · intro e he hne
    rw [Broadcast.remove_child]
    simp only [List.mem_filter]
    exact ⟨he, by simpa [bne_iff_ne] using hne⟩
  · intro e he
    rw [Broadcast.remove_child] at he
    simp only [List.mem_filter] at he
    exact ⟨he.1, by simpa [bne_iff_ne] using he.2⟩

theorem remove_child_spec_witness :
    ((Broadcast.remove_child ⟨9, ⟨false⟩, none, [(1, ⟨false⟩), (2, ⟨true⟩)]⟩ 2).2 = true ↔
      ∃ s, ((2 : Nat), s) ∈ [((1 : Nat), (⟨false⟩ : Sender)), (2, ⟨true⟩)]) ∧
    ((1, (⟨false⟩ : Sender)) ∈
      (Broadcast.remove_child ⟨9, ⟨false⟩, none, [(1, ⟨false⟩), (2, ⟨true⟩)]⟩ 2).1.children) := by
  constructor
  · exact (remove_child_spec ⟨9, ⟨false⟩, none, [(1, ⟨false⟩), (2, ⟨true⟩)]⟩ 2).1
  · exact (remove_child_spec ⟨9, ⟨false⟩, none, [(1, ⟨false⟩), (2, ⟨true⟩)]⟩ 2).2.2.1
      (1, ⟨false⟩) (by decide) (by decide)

end Bastion

namespace Executor

/-- Shared statistics (`Stats` in `load_balancer.rs`): global run-queue
counter, the published mean, and the per-core queue depths
(`FxHashMap<usize, usize>`, modelled as an association list from core id to
depth). -/
structure Stats where
  global_run_queue : Nat
  mean_level : Nat
  smp_queues : List (Nat × Nat)
deriving DecidableEq, Repr

/-- Sum of the per-core queue depths: `stats.smp_queues.values().sum()`. -/
def Stats.queues_sum (st : Stats) : Nat := (st.smp_queues.map Prod.snd).sum

/-- `usize::wrapping_div`.  On an unsigned type wrapping division coincides
with plain division for every nonzero divisor; like every Rust integer
division it panics when the divisor is zero, which is modelled as `none`. -/
def wrapping_div (a b : Nat) : Option Nat :=
  if b = 0 then none else some (a / b)

/-- One iteration of the loop spawned by `LoadBalancer::sample`
(`load_balancer.rs` lines 17–30).  `readAcq` / `writeAcq` tell whether the
non-blocking `try_read` / `try_write` acquisitions succeeded this iteration;
`coreCount` models `placement::get_core_ids().unwrap().len()`.  `m` starts
at `0_usize` and is replaced by the computed mean only when the read lock
was acquired; an acquired write lock stores `m` into `mean_level`.  `none`
models a panic of the sampler thread. -/
def sampleIteration (readAcq writeAcq : Bool) (coreCount : Nat) (st : Stats) :
    Option Stats :=
  let m0 : Nat := 0
  match (if readAcq then wrapping_div st.queues_sum coreCount else some m0) with
  | none => none
  | some m => some (if writeAcq then { st with mean_level := m } else st)

/-- Claim C8, counterexample: with core count zero and an acquired read lock
the iteration traps — `wrapping_div` panics on a zero divisor, wrapping or
not. -/
theorem sample_zero_cores_traps :
    sampleIteration true true 0 ⟨0, 5, [(0, 3)]⟩ = none := by
  decide

/-- Claim C8 as amended: for every nonzero core count one iteration of the
sampler loop computes the mean as the sum of the per-core queue depths
wrapping-divided by the core count without trapping; with core count zero,
the division panics. -/
theorem sample_no_trap (readAcq writeAcq : Bool) (coreCount : Nat) (st : Stats)
    (h : coreCount ≠ 0) :
    sampleIteration readAcq writeAcq coreCount st =
      some (if writeAcq then
              { st with mean_level := if readAcq then st.queues_sum / coreCount else 0 }
            else st) := by
  cases readAcq <;> cases writeAcq <;>
    simp [sampleIteration, wrapping_div, h]

theorem sample_no_trap_witness :
    (4 : Nat) ≠ 0 ∧
    sampleIteration true true 4 ⟨0, 5, [(0, 3), (1, 9)]⟩ = some ⟨0, 3, [(0, 3), (1, 9)]⟩ := by
  constructor
  · decide
  · rw [sample_no_trap true true 4 ⟨0, 5, [(0, 3), (1, 9)]⟩ (by decide)]
    decide

/-- Claim C9, counterexample: an iteration whose non-blocking read fails does
not leave `mean_level` unchanged when the write lock is acquired — it stores
the default `0`, clobbering the previous value `5`. -/
theorem sample_missed_read_stores_zero :
    sampleIteration false true 4 ⟨0, 5, [(0, 3)]⟩ = some ⟨0, 0, [(0, 3)]⟩ ∧
    (5 : Nat) ≠ 0 := by
  decide

/-- Claim C9 as amended: when the read lock is acquired, an acquired write
stores exactly the mean computed from the statistics read in that same
iteration; when the read acquisition fails, an acquired write stores the
default `0` rather than leaving `mean_level` unchanged; and when the write
acquisition fails, the statistics are unchanged. -/
theorem sample_store_semantics (writeAcq : Bool) (coreCount : Nat) (st : Stats)
    (h : coreCount ≠ 0) :
    sampleIteration true writeAcq coreCount st =
      some (if writeAcq then { st with mean_level := st.queues_sum / coreCount } else st) ∧
    sampleIteration false writeAcq coreCount st =
      some (if writeAcq then { st with mean_level := 0 } else st) ∧
    sampleIteration true false coreCount st = some st ∧
    sampleIteration false false coreCount st = some st := by
  cases writeAcq <;>
    simp [sampleIteration, wrapping_div, h]

theorem sample_store_semantics_witness :
    (4 : Nat) ≠ 0 ∧
    sampleIteration false true 4 ⟨0, 5, [(0, 3)]⟩ = some ⟨0, 0, [(0, 3)]⟩ := by
  constructor
  · decide
  · rw [(sample_store_semantics true 4 ⟨0, 5, [(0, 3)]⟩ (by decide)).2.1]
    decide

end Executor
